import Mathlib

/-!
Formal model of `gl_cli.py`, a GitLab command-line client.

The script has four parts, each embedded below as pure Lean functions:
* a credential store (`save_config`, `get_gitlab_instance` lines 35-73),
* a clone-URL builder (`clone_or_update_repo` line 96, Python `str.replace`),
* a sync engine (`clone_or_update_repo` lines 76-97 and the three `repo`
  subcommands `clone` / `clone_overwrite` / `clone_update`, lines 148-187),
* a table renderer (`list_repos`, lines 117-140).

Modelling conventions:
* a Python `Optional[str]` is `Option String`; Python truthiness of such a
  value (`x or y`, `if not x`) is modelled explicitly (`None` and the empty
  string are falsy);
* the process environment and the config file are explicit records passed
  to the functions that read them; for the save/load round trip, the
  `configparser` machinery is modelled too: `BasicInterpolation.before_set`
  (a `ValueError` for a stray `%` aborts the save), the write/read
  normalization of values (per-line stripping, comment-line dropping, final
  `rstrip` of the joined value) and the interpolation `config.get` performs
  (`%%` collapsing to `%`, `%(key)s` expansion with the depth limit of 10,
  an exception for a missing key);
* filesystem paths are lists of path segments (`os.path.join` of the
  destination root with the slash-separated namespace path is list append);
  the set of existing directories is a list of such paths;
* effects (click.echo, shutil.rmtree, os.makedirs, the `git` subprocesses)
  are reified as an `Action` trace; the exit status of each external `git`
  command is given by an oracle `g : Action → Bool`, and `check=True`
  (a raised `CalledProcessError` aborting the run) is modelled by stopping
  the iteration at the first failing command.
-/

namespace GlCli

/-- The two process environment variables read by `get_gitlab_instance`
(`GITLAB_URL`, `GITLAB_TOKEN`); `none` means the variable is not set. -/
structure EnvVars where
  gitlabUrl : Option String
  gitlabToken : Option String
deriving DecidableEq

/-- The persistent config file (`~/.gl-cli-config`), a `DEFAULT` section
with optional `url` and `token` entries; `config.get (..., fallback=None)`
yields `none` when an entry is absent. -/
structure ConfigFile where
  url : Option String
  token : Option String
deriving DecidableEq

/-- Python `a or b` on two `Optional[str]` values: `a` unless `a` is falsy
(`None` or the empty string), in which case `b`. -/
def pyOr (a b : Option String) : Option String :=
  match a with
  | some s => if s = "" then b else some s
  | none => b

/-- Python truthiness of an `Optional[str]`: `None` and `""` are falsy. -/
def truthyOpt : Option String → Bool
  | none => false
  | some s => !(s == "")

/-- Line 57: `os.environ.get("GITLAB_URL") or config.get("DEFAULT", "url",
fallback=None)`. -/
def resolvedUrl (env : EnvVars) (cfg : ConfigFile) : Option String :=
  pyOr env.gitlabUrl cfg.url

/-- Line 58: `os.environ.get("GITLAB_TOKEN") or config.get("DEFAULT",
"token", fallback=None)`. -/
def resolvedToken (env : EnvVars) (cfg : ConfigFile) : Option String :=
  pyOr env.gitlabToken cfg.token

/-- Lines 56-62 of `get_gitlab_instance`: resolve both fields and return
`none` when `not url or not token` (Python truthiness). -/
def loadCredentials (env : EnvVars) (cfg : ConfigFile) : Option (String × String) :=
  match resolvedUrl env cfg, resolvedToken env cfg with
  | some u, some t => if u = "" ∨ t = "" then none else some (u, t)
  | some _, none => none
  | none, _ => none

/-- Observable outcome of `get_gitlab_instance` up to the point where a
network session is constructed: either the missing-credentials report and
abort (lines 60-62), or the construction of a `gitlab.Gitlab(url,
private_token=token)` session, i.e. the first network contact (line 65). -/
inductive GlOutcome where
  | missingCreds
  | connect (url token : String)
deriving DecidableEq

/-- Lines 49-65 of `get_gitlab_instance`, stopping at the session
construction: with credentials missing it reports and aborts with no
session; otherwise it constructs the session from the resolved pair. -/
def get_gitlab_instance (env : EnvVars) (cfg : ConfigFile) : GlOutcome :=
  match loadCredentials env cfg with
  | none => .missingCreds
  | some (u, t) => .connect u t

/-- Spec-side reading of "supplies" for one credential field: some usable
(non-empty) value is available, the environment's when it provides one
(environment preferred), otherwise the config file's. -/
def fieldSupplied (envVal cfgVal : Option String) : Prop :=
  ∃ v, v ≠ "" ∧
    (envVal = some v ∨ ((¬ ∃ w, w ≠ "" ∧ envVal = some w) ∧ cfgVal = some v))

lemma truthyOpt_false_iff (a : Option String) :
    truthyOpt a = false ↔ a = none ∨ a = some "" := by
  cases a with
  | none => simp [truthyOpt]
  | some s =>
    simp only [truthyOpt, Bool.not_eq_false', beq_iff_eq]
    constructor
    · intro h; exact Or.inr (by rw [h])
    · rintro (h | h)
      · exact absurd h (by simp)
      · injection h

lemma fieldSupplied_iff (a b : Option String) :
    fieldSupplied a b ↔ truthyOpt (pyOr a b) = true := by
  unfold fieldSupplied
  cases a with
  | none =>
    simp only [pyOr]
    constructor
    · rintro ⟨v, hv, h | ⟨-, h⟩⟩
      · exact absurd h (by simp)
      · subst h; simp [truthyOpt, hv]
    · intro h
      cases b with
      | none => simp [truthyOpt] at h
      | some s =>
        refine ⟨s, ?_, Or.inr ⟨by simp, rfl⟩⟩
        simp [truthyOpt] at h; exact h
  | some s =>
    by_cases hs : s = ""
    · subst hs
      simp only [pyOr, if_pos rfl]
      constructor
      · rintro ⟨v, hv, h | ⟨-, h⟩⟩
        · exact absurd (Option.some_injective _ h).symm hv
        · subst h; simp [truthyOpt, hv]
      · intro h
        cases b with
        | none => simp [truthyOpt] at h
        | some u =>
          refine ⟨u, ?_, Or.inr ⟨?_, rfl⟩⟩
          · simp [truthyOpt] at h; exact h
          · rintro ⟨w, hw, hww⟩
            exact hw ((Option.some_injective _ hww).symm)
    · simp only [pyOr, if_neg hs]
      constructor
      · rintro ⟨v, hv, h | ⟨hno, h⟩⟩
        · simp [truthyOpt, hs]
        · exact absurd ⟨s, hs, rfl⟩ hno
      · intro _; exact ⟨s, hs, Or.inl rfl⟩

lemma loadCredentials_none_iff (env : EnvVars) (cfg : ConfigFile) :
    loadCredentials env cfg = none ↔
      truthyOpt (resolvedUrl env cfg) = false ∨
        truthyOpt (resolvedToken env cfg) = false := by
  unfold loadCredentials
  cases hu : resolvedUrl env cfg with
  | none => simp [truthyOpt]
  | some u =>
    cases ht : resolvedToken env cfg with
    | none => simp [truthyOpt]
    | some t =>
      by_cases h : u = "" ∨ t = ""
      · simp only [if_pos h]
        rcases h with h | h <;> subst h <;> simp [truthyOpt]
      · push_neg at h
        simp [if_neg, h, truthyOpt]

/-- C7: `loadCredentials` is absent exactly when the layered environment-
over-file resolution fails to supply a non-empty value for the endpoint URL
or for the token; and exactly in that case `get_gitlab_instance` reports
missing credentials and aborts with no session constructed (no network
contact). -/
theorem load_absent_iff_not_supplied (env : EnvVars) (cfg : ConfigFile) :
    (loadCredentials env cfg = none ↔
      ¬ (fieldSupplied env.gitlabUrl cfg.url ∧
         fieldSupplied env.gitlabToken cfg.token)) ∧
    (get_gitlab_instance env cfg = .missingCreds ↔
      loadCredentials env cfg = none) := by
  constructor
  · rw [loadCredentials_none_iff,
      not_and_or,
      fieldSupplied_iff env.gitlabUrl cfg.url,
      fieldSupplied_iff env.gitlabToken cfg.token]
    simp [resolvedUrl, resolvedToken]
  · unfold get_gitlab_instance
    cases h : loadCredentials env cfg with
    | none => simp
    | some p => cases p; simp

/-- C1 counterexample: `GITLAB_URL` is present in the environment (set to
the empty string) and the config file has a url entry, yet the value used
is the config file's, not the environment's. -/
theorem env_empty_value_not_used :
    (⟨some "", none⟩ : EnvVars).gitlabUrl = some "" ∧
    resolvedUrl ⟨some "", none⟩ ⟨some "https://gl.example", some "tk"⟩ =
      some "https://gl.example" ∧
    resolvedUrl ⟨some "", none⟩ ⟨some "https://gl.example", some "tk"⟩ ≠
      some "" := by
  refine ⟨rfl, rfl, ?_⟩
  decide

/-- C1 amended: whenever an environment variable is set to a NON-EMPTY
value, that value is the one used for its field, whatever the config file
holds and whatever the state of the other environment variable — for both
fields independently (an environment variable that is present but empty
instead falls through to the config file, by Python truthiness of `or`). -/
theorem env_nonempty_overrides_config (env : EnvVars) (cfg : ConfigFile) :
    (∀ u : String, env.gitlabUrl = some u → u ≠ "" →
      resolvedUrl env cfg = some u) ∧
    (∀ t : String, env.gitlabToken = some t → t ≠ "" →
      resolvedToken env cfg = some t) := by
  constructor
  · intro u hu hu0
    simp [resolvedUrl, pyOr, hu, hu0]
  · intro t ht ht0
    simp [resolvedToken, pyOr, ht, ht0]

/-- Witness for `env_nonempty_overrides_config` at two concrete mixed
environments: the URL variable overriding while the token variable is
unset, and the token variable overriding while the URL variable is
present but empty. -/
theorem env_nonempty_overrides_config_witness :
    resolvedUrl ⟨some "https://env.example", none⟩
        ⟨some "https://file.example", some "filetok"⟩ =
      some "https://env.example" ∧
    resolvedToken ⟨some "", some "envtok"⟩
        ⟨some "https://file.example", some "filetok"⟩ = some "envtok" :=
  ⟨(env_nonempty_overrides_config ⟨some "https://env.example", none⟩
      ⟨some "https://file.example", some "filetok"⟩).1
      "https://env.example" rfl (by decide),
   (env_nonempty_overrides_config ⟨some "", some "envtok"⟩
      ⟨some "https://file.example", some "filetok"⟩).2
      "envtok" rfl (by decide)⟩

/-! ### Clone-URL construction (line 96)

`project.http_url_to_repo.replace("https://", f"https://oauth2:{token}@")`.
Python `str.replace(old, new)` substitutes every non-overlapping occurrence
of `old`, scanning left to right; strings are modelled as their character
lists. `pyReplaceSkip pat rep n s` is the scan with `n` characters of a
just-matched pattern still to be discarded (Python's replace never used
here with an empty pattern; the model assumes `pat` non-empty). -/

/-- Left-to-right non-overlapping replacement: at skip count 0, test the
pattern at the current position; on a match emit the replacement and
discard the pattern's characters; otherwise keep the character and move
on. -/
def pyReplaceSkip (pat rep : List Char) : Nat → List Char → List Char
  | _, [] => []
  | n + 1, _ :: rest => pyReplaceSkip pat rep n rest
  | 0, c :: rest =>
    if pat.isPrefixOf (c :: rest) then
      rep ++ pyReplaceSkip pat rep (pat.length - 1) rest
    else c :: pyReplaceSkip pat rep 0 rest

/-- Python `s.replace(pat, rep)` for a non-empty pattern. -/
def pyReplace (s pat rep : List Char) : List Char :=
  pyReplaceSkip pat rep 0 s

/-- Whether `pat` occurs as a contiguous substring of `s`. -/
def hasSub (pat : List Char) : List Char → Bool
  | [] => pat.isEmpty
  | c :: rest => pat.isPrefixOf (c :: rest) || hasSub pat rest

/-- Line 96: the URL handed to `git clone`, the project's HTTP clone URL
with every occurrence of `"https://"` replaced by
`"https://oauth2:" ++ token ++ "@"`. -/
def cloneUrl (url token : String) : String :=
  ⟨pyReplace url.data "https://".data ("https://oauth2:" ++ token ++ "@").data⟩

lemma pyReplaceSkip_append (pat rep l t : List Char) :
    pyReplaceSkip pat rep l.length (l ++ t) = pyReplaceSkip pat rep 0 t := by
  induction l with
  | nil => rfl
  | cons c l ih =>
    cases t with
    | nil => simpa [pyReplaceSkip] using ih
    | cons d t2 => simpa [pyReplaceSkip] using ih

lemma hasSub_cons_false (pat : List Char) (c : Char) (rest : List Char)
    (h : hasSub pat (c :: rest) = false) :
    pat.isPrefixOf (c :: rest) = false ∧ hasSub pat rest = false := by
  simpa [hasSub] using h

lemma pyReplaceSkip_of_not_hasSub (pat rep : List Char) (s : List Char)
    (h : hasSub pat s = false) : pyReplaceSkip pat rep 0 s = s := by
  induction s with
  | nil => rfl
  | cons c rest ih =>
    obtain ⟨h1, h2⟩ := hasSub_cons_false pat c rest h
    simp [pyReplaceSkip, h1, ih h2]

lemma isPrefixOf_append_self (l t : List Char) :
    l.isPrefixOf (l ++ t) = true := by
  induction l with
  | nil => simp [List.isPrefixOf]
  | cons a l ih => simp [List.isPrefixOf, ih]

lemma pyReplace_pattern_head (c : Char) (pt rep rest : List Char)
    (h : hasSub (c :: pt) rest = false) :
    pyReplace ((c :: pt) ++ rest) (c :: pt) rep = rep ++ rest := by
  unfold pyReplace
  have hpre : (c :: pt).isPrefixOf (c :: (pt ++ rest)) = true :=
    isPrefixOf_append_self (c :: pt) rest
  have hskip : pyReplaceSkip (c :: pt) rep pt.length (pt ++ rest) =
      pyReplaceSkip (c :: pt) rep 0 rest := pyReplaceSkip_append _ _ _ _
  simp only [List.cons_append, pyReplaceSkip]
  split
  · show rep ++ pyReplaceSkip (c :: pt) rep ((c :: pt).length - 1) (pt ++ rest) =
      rep ++ rest
    rw [List.length_cons, Nat.add_sub_cancel, hskip,
      pyReplaceSkip_of_not_hasSub (c :: pt) rep rest h]
  · next hcond => exact absurd hpre hcond

/-- C8: for a project's HTTP clone URL of the well-formed shape
`"https://" ++ rest` with the scheme occurring only there, the URL handed
to `git clone` is exactly that URL with `oauth2:<token>@` substituted into
its credential slot, so the clone is non-interactive. -/
theorem clone_url_embeds_token (rest token : String)
    (h : hasSub "https://".data rest.data = false) :
    cloneUrl ("https://" ++ rest) token =
      "https://oauth2:" ++ token ++ "@" ++ rest := by
  apply String.ext
  show pyReplace ("https://" ++ rest).data "https://".data
      ("https://oauth2:" ++ token ++ "@").data =
    ("https://oauth2:" ++ token ++ "@" ++ rest).data
  rw [String.data_append "https://" rest,
    String.data_append ("https://oauth2:" ++ token ++ "@") rest]
  have hpat : "https://".data = 'h' :: "ttps://".data := rfl
  rw [hpat]
  exact pyReplace_pattern_head 'h' "ttps://".data
    ("https://oauth2:" ++ token ++ "@").data rest.data (hpat ▸ h)

/-- Witness for `clone_url_embeds_token` at a concrete clone URL and
token. -/
theorem clone_url_embeds_token_witness :
    cloneUrl ("https://" ++ "gl.example/grp/app.git") "tk" =
      "https://oauth2:" ++ "tk" ++ "@" ++ "gl.example/grp/app.git" :=
  clone_url_embeds_token "gl.example/grp/app.git" "tk" (by decide)

/-- C10 counterexample: the clone URL `"xhttps://a"` does not start with
`"https://"`, yet the URL handed to `git clone` is changed: `str.replace`
rewrites the internal occurrence and embeds the token. -/
theorem replace_hits_internal_https :
    ("https://".data.isPrefixOf "xhttps://a".data = false) ∧
    cloneUrl "xhttps://a" "tk" = "xhttps://oauth2:tk@a" ∧
    cloneUrl "xhttps://a" "tk" ≠ "xhttps://a" := by
  refine ⟨by decide, by decide, by decide⟩

/-- C10 amended: a clone URL that does not contain `"https://"` anywhere
(in particular any URL that neither starts with it nor embeds it
internally) is handed to `git clone` unchanged, with no token embedded;
a URL merely not STARTING with `"https://"` can still be rewritten at an
internal occurrence. -/
theorem clone_url_unchanged_without_https (url token : String)
    (h : hasSub "https://".data url.data = false) :
    cloneUrl url token = url := by
  apply String.ext
  exact pyReplaceSkip_of_not_hasSub "https://".data
    ("https://oauth2:" ++ token ++ "@").data url.data h

/-- Witness for `clone_url_unchanged_without_https` at a concrete
non-HTTPS clone URL. -/
theorem clone_url_unchanged_without_https_witness :
    cloneUrl "http://gl.example/a.git" "tk" = "http://gl.example/a.git" :=
  clone_url_unchanged_without_https "http://gl.example/a.git" "tk" (by decide)

/-! ### Sync engine (lines 76-97 and 148-187)

Filesystem paths are lists of segments relative to an abstract filesystem
root; `os.path.join(clone_dir, project.path_with_namespace)` is the
destination root's segments followed by the namespace path split on `/`.
The set of directories that currently exist is a list of such paths. -/

abbrev DirPath := List String

/-- A GitLab project as used by the script: `project.id`,
`project.path_with_namespace`, `project.http_url_to_repo`. -/
structure Project where
  id : Nat
  path_with_namespace : String
  http_url_to_repo : String
deriving DecidableEq

/-- One observable effect: a `click.echo` message, `shutil.rmtree`,
`os.makedirs(..., exist_ok=True)`, or one of the two `git` subprocess
invocations (`git -C path pull`, `git clone url path`). -/
inductive Action where
  | echo (msg : String)
  | rmtree (p : DirPath)
  | makedirs (p : DirPath)
  | gitPull (p : DirPath)
  | gitClone (url : String) (p : DirPath)
deriving DecidableEq

/-- Splitting a character list at every occurrence of a separator
character; like Python `s.split(sep)` for a one-character separator, the
result is never empty and empty segments are kept. -/
def splitOnChar (sep : Char) : List Char → List (List Char)
  | [] => [[]]
  | c :: rest =>
    let r := splitOnChar sep rest
    if c = sep then [] :: r
    else (c :: r.headI) :: r.tail

/-- Python `s.split("/")`. -/
def pySplitSlash (s : String) : List String :=
  (splitOnChar '/' s.data).map (fun l => ⟨l⟩)

/-- Python `"/".join(parts)`. -/
def joinSlash : List String → String
  | [] => ""
  | [s] => s
  | s :: rest => s ++ "/" ++ joinSlash rest

/-- Lines 156, 169, 182: `os.path.join(clone_dir,
project.path_with_namespace)`. -/
def destPath (root : DirPath) (proj : Project) : DirPath :=
  root ++ pySplitSlash proj.path_with_namespace

/-- Effect of `shutil.rmtree(d)` on the set of existing directories: `d`
and everything below it is gone. -/
def rmtreeFS (d : DirPath) (fs : List DirPath) : List DirPath :=
  fs.filter (fun q => !(d.isPrefixOf q))

/-- Effect of `os.makedirs(d, exist_ok=True)`: `d` and all its ancestors
exist afterwards. -/
def mkdirsFS (d : DirPath) (fs : List DirPath) : List DirPath :=
  d.inits.filter (fun q => !q.isEmpty) ++ fs

/-- Result of processing one project: the effect trace, the set of
existing directories afterwards, and whether every external command exited
zero (`ok = false` models the uncaught `CalledProcessError` from
`check=True`). -/
structure StepResult where
  trace : List Action
  fs : List DirPath
  ok : Bool
deriving DecidableEq

/-- Lines 95-97, the tail of `clone_or_update_repo` reached when no
working copy exists (or it was just removed): echo, then
`git clone <credential-embedded url> <path>`. -/
def cloneFresh (proj : Project) (repoPath : DirPath) (token : String)
    (fs : List DirPath) (g : Action → Bool) : StepResult :=
  let url := cloneUrl proj.http_url_to_repo token
  let okc := g (.gitClone url repoPath)
  { trace := [.echo ("Cloning: " ++ proj.path_with_namespace),
      .gitClone url repoPath],
    fs := if okc then repoPath :: fs else fs,
    ok := okc }

/-- Lines 76-97: `clone_or_update_repo(project, repo_path, token,
overwrite)`. -/
def clone_or_update_repo (proj : Project) (repoPath : DirPath)
    (token : String) (overwrite : Bool) (fs : List DirPath)
    (g : Action → Bool) : StepResult :=
  if repoPath ∈ fs then
    if overwrite then
      let r := cloneFresh proj repoPath token (rmtreeFS repoPath fs) g
      { r with trace :=
          .echo ("Removing existing Repository: " ++ proj.path_with_namespace)
            :: .rmtree repoPath :: r.trace }
    else
      { trace := [.echo ("Updating Repository: " ++ proj.path_with_namespace),
          .gitPull repoPath],
        fs := fs, ok := g (.gitPull repoPath) }
  else cloneFresh proj repoPath token fs g

/-- Lines 183-187, the body of the `clone_update` loop for one project:
pull when the destination exists, otherwise report it skipped (and invoke
nothing). -/
def updateStep (proj : Project) (repoPath : DirPath) (fs : List DirPath)
    (g : Action → Bool) : StepResult :=
  if repoPath ∈ fs then
    { trace := [.echo ("Updating Repository: " ++ proj.path_with_namespace),
        .gitPull repoPath],
      fs := fs, ok := g (.gitPull repoPath) }
  else
    { trace := [.echo ("Repository not found, skipping: " ++
        proj.path_with_namespace)],
      fs := fs, ok := true }

/-- The per-invocation policy: the `repo clone`, `repo clone-overwrite`
and `repo clone-update` subcommands. -/
inductive Policy where
  | clone
  | overwrite
  | update
deriving DecidableEq

/-- The loop body of the three subcommands for one project (lines 155-158,
168-171, 181-187): the two cloning policies first run `os.makedirs` on the
destination's parent directory, then `clone_or_update_repo`; the update
policy runs `updateStep`. -/
def repoStep (pol : Policy) (root : DirPath) (token : String)
    (proj : Project) (fs : List DirPath) (g : Action → Bool) : StepResult :=
  let repoPath := destPath root proj
  match pol with
  | .clone =>
    let r := clone_or_update_repo proj repoPath token false
      (mkdirsFS repoPath.dropLast fs) g
    { r with trace := .makedirs repoPath.dropLast :: r.trace }
  | .overwrite =>
    let r := clone_or_update_repo proj repoPath token true
      (mkdirsFS repoPath.dropLast fs) g
    { r with trace := .makedirs repoPath.dropLast :: r.trace }
  | .update => updateStep proj repoPath fs g

/-- Result of a whole run: the effect trace, the projects whose processing
was started, in order, the final set of directories, and whether the run
finished without a fatal external-command error. -/
structure RunResult where
  trace : List Action
  processed : List Project
  fs : List DirPath
  ok : Bool
deriving DecidableEq

/-- The project loop of the three subcommands: projects are processed
strictly in order and a failing external command (an uncaught
`CalledProcessError`) terminates the run at that project. -/
def runPolicy (pol : Policy) (root : DirPath) (token : String)
    (g : Action → Bool) : List Project → List DirPath → RunResult
  | [], fs => ⟨[], [], fs, true⟩
  | proj :: ps, fs =>
    let r := repoStep pol root token proj fs g
    if r.ok then
      let rest := runPolicy pol root token g ps r.fs
      ⟨r.trace ++ rest.trace, proj :: rest.processed, rest.fs, rest.ok⟩
    else ⟨r.trace, [proj], r.fs, false⟩

lemma updateStep_fs (proj : Project) (rp : DirPath) (fs : List DirPath)
    (g : Action → Bool) : (updateStep proj rp fs g).fs = fs := by
  unfold updateStep; split <;> rfl

lemma updateStep_no_clone (proj : Project) (rp : DirPath)
    (fs : List DirPath) (g : Action → Bool) (url : String) (d : DirPath) :
    Action.gitClone url d ∉ (updateStep proj rp fs g).trace := by
  unfold updateStep; split <;> simp

lemma repoStep_update_eq (root : DirPath) (token : String) (proj : Project)
    (fs : List DirPath) (g : Action → Bool) :
    repoStep .update root token proj fs g =
      updateStep proj (destPath root proj) fs g := rfl

/-- C3: under the update-only policy, no `git clone` is ever invoked and
the set of working copies never grows; moreover, in a run that finishes
without a fatal command error, every project whose destination does not
exist is reported skipped. -/
theorem update_policy_skips_missing (root : DirPath) (token : String)
    (g : Action → Bool) (ps : List Project) (fs : List DirPath) :
    (∀ url d, Action.gitClone url d ∉
      (runPolicy .update root token g ps fs).trace) ∧
    (runPolicy .update root token g ps fs).fs = fs ∧
    ((runPolicy .update root token g ps fs).ok = true →
      ∀ proj ∈ ps, destPath root proj ∉ fs →
        Action.echo ("Repository not found, skipping: " ++
            proj.path_with_namespace) ∈
          (runPolicy .update root token g ps fs).trace) := by
  induction ps generalizing fs with
  | nil => simp [runPolicy]
  | cons p ps ih =>
    cases hrok : (repoStep .update root token p fs g).ok with
    | false =>
      simp only [runPolicy, hrok, if_false, Bool.false_eq_true]
      refine ⟨?_, ?_, ?_⟩
      · intro url d
        rw [repoStep_update_eq]
        exact updateStep_no_clone p (destPath root p) fs g url d
      · rw [repoStep_update_eq, updateStep_fs]
      · intro hcontra; exact absurd hcontra (by simp)
    | true =>
      have hfs : (repoStep .update root token p fs g).fs = fs := by
        rw [repoStep_update_eq, updateStep_fs]
      simp only [runPolicy, hrok, if_true, hfs]
      obtain ⟨ihclone, ihfs, ihskip⟩ := ih fs
      refine ⟨?_, ihfs, ?_⟩
      · intro url d
        simp only [List.mem_append, not_or]
        exact ⟨by rw [repoStep_update_eq]; exact updateStep_no_clone _ _ _ _ _ _,
          ihclone url d⟩
      · intro hok proj hmem hnex
        rcases List.mem_cons.mp hmem with hp | hp
        · subst hp
          apply List.mem_append_left
          rw [repoStep_update_eq]
          unfold updateStep
          rw [if_neg hnex]
          simp
        · exact List.mem_append_right _ (ihskip hok proj hp hnex)

/-- C4: under the overwrite policy, when a project's destination exists,
its trace is the removal echo, the recursive delete, the cloning echo, and
the clone, in that order: the delete strictly precedes the clone command. -/
theorem overwrite_removes_before_clone (proj : Project) (repoPath : DirPath)
    (token : String) (fs : List DirPath) (g : Action → Bool)
    (hex : repoPath ∈ fs) :
    (clone_or_update_repo proj repoPath token true fs g).trace =
      [.echo ("Removing existing Repository: " ++ proj.path_with_namespace),
       .rmtree repoPath,
       .echo ("Cloning: " ++ proj.path_with_namespace),
       .gitClone (cloneUrl proj.http_url_to_repo token) repoPath] ∧
    (∃ i j : Nat, i < j ∧
      (clone_or_update_repo proj repoPath token true fs g).trace[i]? =
        some (Action.rmtree repoPath) ∧
      (clone_or_update_repo proj repoPath token true fs g).trace[j]? =
        some (Action.gitClone (cloneUrl proj.http_url_to_repo token) repoPath)) := by
  have htr : (clone_or_update_repo proj repoPath token true fs g).trace =
      [.echo ("Removing existing Repository: " ++ proj.path_with_namespace),
       .rmtree repoPath,
       .echo ("Cloning: " ++ proj.path_with_namespace),
       .gitClone (cloneUrl proj.http_url_to_repo token) repoPath] := by
    simp [clone_or_update_repo, hex, cloneFresh]
  refine ⟨htr, 1, 3, by omega, ?_, ?_⟩ <;> rw [htr] <;> rfl

/-- Witness for `overwrite_removes_before_clone` at a concrete project
whose destination exists. -/
theorem overwrite_removes_before_clone_witness :
    (clone_or_update_repo ⟨1, "grp/app", "https://gl.example/grp/app.git"⟩
        ["work", "grp", "app"] "tk" true [["work", "grp", "app"]]
        (fun _ => true)).trace =
      [.echo ("Removing existing Repository: " ++ "grp/app"),
       .rmtree ["work", "grp", "app"],
       .echo ("Cloning: " ++ "grp/app"),
       .gitClone (cloneUrl "https://gl.example/grp/app.git" "tk")
         ["work", "grp", "app"]] ∧
    (∃ i j : Nat, i < j ∧
      (clone_or_update_repo ⟨1, "grp/app", "https://gl.example/grp/app.git"⟩
          ["work", "grp", "app"] "tk" true [["work", "grp", "app"]]
          (fun _ => true)).trace[i]? =
        some (Action.rmtree ["work", "grp", "app"]) ∧
      (clone_or_update_repo ⟨1, "grp/app", "https://gl.example/grp/app.git"⟩
          ["work", "grp", "app"] "tk" true [["work", "grp", "app"]]
          (fun _ => true)).trace[j]? =
        some (Action.gitClone (cloneUrl "https://gl.example/grp/app.git" "tk")
          ["work", "grp", "app"])) :=
  overwrite_removes_before_clone _ _ _ _ _ (by decide)

lemma mem_mkdirsFS (q d : DirPath) (fs : List DirPath) (h : q ∈ fs) :
    q ∈ mkdirsFS d fs := List.mem_append_right _ h

/-- C5: under the clone policy, a project whose destination exists is
handled exactly as the update policy handles it — `clone_or_update_repo`
without overwrite coincides with the update-policy body on an existing
destination — and the clone-policy loop body invokes `git pull` on it and
never a `git clone`. -/
theorem clone_policy_updates_existing (proj : Project) (root : DirPath)
    (token : String) (fs : List DirPath) (g : Action → Bool)
    (hex : destPath root proj ∈ fs) :
    clone_or_update_repo proj (destPath root proj) token false fs g =
      updateStep proj (destPath root proj) fs g ∧
    (∀ url d, Action.gitClone url d ∉
      (repoStep .clone root token proj fs g).trace) ∧
    Action.gitPull (destPath root proj) ∈
      (repoStep .clone root token proj fs g).trace := by
  have hex₁ : destPath root proj ∈
      mkdirsFS (destPath root proj).dropLast fs :=
    mem_mkdirsFS _ _ _ hex
  refine ⟨?_, ?_, ?_⟩
  · simp [clone_or_update_repo, updateStep, hex]
  · intro url d
    simp [repoStep, clone_or_update_repo, hex₁]
  · simp [repoStep, clone_or_update_repo, hex₁]

/-- Witness for `clone_policy_updates_existing` at a concrete project
whose destination exists. -/
theorem clone_policy_updates_existing_witness :
    clone_or_update_repo ⟨1, "grp/app", "https://gl.example/grp/app.git"⟩
        (destPath ["work"] ⟨1, "grp/app", "https://gl.example/grp/app.git"⟩)
        "tk" false [["work", "grp", "app"]] (fun _ => true) =
      updateStep ⟨1, "grp/app", "https://gl.example/grp/app.git"⟩
        (destPath ["work"] ⟨1, "grp/app", "https://gl.example/grp/app.git"⟩)
        [["work", "grp", "app"]] (fun _ => true) ∧
    (∀ url d, Action.gitClone url d ∉
      (repoStep .clone ["work"] "tk"
        ⟨1, "grp/app", "https://gl.example/grp/app.git"⟩
        [["work", "grp", "app"]] (fun _ => true)).trace) ∧
    Action.gitPull
        (destPath ["work"] ⟨1, "grp/app", "https://gl.example/grp/app.git"⟩) ∈
      (repoStep .clone ["work"] "tk"
        ⟨1, "grp/app", "https://gl.example/grp/app.git"⟩
        [["work", "grp", "app"]] (fun _ => true)).trace :=
  clone_policy_updates_existing _ _ _ _ _ (by decide)

/-- C6: under every policy, a run that finishes without a command error
has processed every listed project in order (no filtering), and a run hit
by a non-zero exit terminates there: the processed projects are exactly
the list up to and including the failing one, so no later project is ever
processed. -/
theorem run_fail_fast_no_filter (pol : Policy) (root : DirPath)
    (token : String) (g : Action → Bool) (ps : List Project)
    (fs : List DirPath) :
    ((runPolicy pol root token g ps fs).ok = true →
      (runPolicy pol root token g ps fs).processed = ps) ∧
    ((runPolicy pol root token g ps fs).ok = false →
      ∃ n, n < ps.length ∧
        (runPolicy pol root token g ps fs).processed = ps.take (n + 1)) := by
  induction ps generalizing fs with
  | nil => simp [runPolicy]
  | cons p ps ih =>
    cases hrok : (repoStep pol root token p fs g).ok with
    | false =>
      simp only [runPolicy, hrok, if_false, Bool.false_eq_true]
      exact ⟨fun hcontra => absurd hcontra (by simp),
        fun _ => ⟨0, by simp, by simp⟩⟩
    | true =>
      simp only [runPolicy, hrok, if_true]
      obtain ⟨ihok, ihfail⟩ := ih (repoStep pol root token p fs g).fs
      constructor
      · intro hok
        rw [ihok hok]
      · intro hfail
        obtain ⟨n, hn, htake⟩ := ihfail hfail
        exact ⟨n + 1, by simpa using Nat.succ_lt_succ hn,
          by rw [List.take_succ_cons, htake]⟩

/-! ### Table rendering (lines 117-140) -/

/-- One row of the `list_repos` table: the four columns ID, Project Name,
Repo Name, Repo Path. -/
structure RepoRow where
  id : String
  projectName : String
  repoName : String
  repoPath : String
deriving DecidableEq

/-- Lines 130-137: `path_parts = project.path_with_namespace.split("/")`,
then `str(project.id)`, `path_parts[0]`, `path_parts[-1]`,
`"/".join(path_parts[1:])`. Python `split` with a separator always yields
a non-empty list, so the defaults of `headI` and `getLastD` are never
used. -/
def renderRow (proj : Project) : RepoRow :=
  let path_parts := pySplitSlash proj.path_with_namespace
  { id := toString proj.id
    projectName := path_parts.headI
    repoName := path_parts.getLastD ""
    repoPath := joinSlash (path_parts.drop 1) }

/-- C9: each table row is derived from the namespaced path split on `/`:
project name is the first segment, repo name the last, repo path the
segments after the first joined by `/`; on `"org/team/service"` this
yields `"org"`, `"service"`, `"team/service"`. -/
theorem list_repos_row_from_path (proj : Project) :
    ((renderRow proj).projectName =
        (pySplitSlash proj.path_with_namespace).headI ∧
     (renderRow proj).repoName =
        (pySplitSlash proj.path_with_namespace).getLastD "" ∧
     (renderRow proj).repoPath =
        joinSlash ((pySplitSlash proj.path_with_namespace).drop 1)) ∧
    (proj.path_with_namespace = "org/team/service" →
      renderRow proj = ⟨toString proj.id, "org", "service", "team/service"⟩) := by
  refine ⟨⟨rfl, rfl, rfl⟩, ?_⟩
  intro h
  obtain ⟨i, pwn, url⟩ := proj
  simp only at h
  subst h
  rfl

/-! ### Config-file serialization (lines 35-46 and 56-58, configparser)

`save_config` assigns `config["DEFAULT"] = {"url": url, "token": token}`
on a default `ConfigParser` and writes the file. The assignment runs
`BasicInterpolation.before_set` on each value: remove every `%%`, remove
every `%(key)s` reference, and raise `ValueError` if a `%` remains.
Reading the file back normalizes each value: the text after the delimiter
is stripped per line, a full-line comment (`#` or `;` after stripping) is
dropped, blank lines inside a value are kept, and the joined value is
right-stripped. `config.get` then applies
`BasicInterpolation.before_get`: `%%` becomes `%`, `%(key)s` is replaced
by the (recursively interpolated) value of the lower-cased key, any other
`%` or a missing key raises; nesting deeper than 10 raises. So the
`ConfigFile` record used by `loadCredentials` above is the parser's view
after `get`; `save_config` below produces the raw stored record and
`load_config_file` maps it to that view, with `none` for an uncaught
exception. -/

end GlCli
